import Mathlib

/-!
Shallow embedding of the `gohybrid` adapter (`host.go`) in Lean 4.

Modelling conventions:
* Go strings are byte strings; we model them as Lean `String` where only
  character-level operations matter (paths, header names/values, content
  types), and as `List Nat` of byte values where raw bytes matter (body
  buffers, base64).  `strToBytes` maps a string to its code points, which
  coincides with Go's bytes for the ASCII data all the code manipulates.
* A decoded JSON document (`json.Unmarshal` into `map[string]interface{}`)
  is modelled by `JValue`; an object is an association list of fields with
  distinct keys (Go maps have unique keys; theorems that quantify over
  events carry a `Nodup` hypothesis where it matters).  JSON numbers are
  modelled as `Int` — no claim computes with numeric values.
* A failed Go type assertion (`x.(T)` without the comma-ok form) is a
  runtime panic; it is modelled by the `panic` outcome / `Except Unit`.
* `fmt.Sprintf "%d"` on a non-negative length is `Nat.repr` (`toString`).
-/

namespace Gohybrid

/-- Byte values of a string: code points, which equal Go's bytes for the
ASCII data the adapter works with. -/
def strToBytes (s : String) : List Nat :=
  s.data.map Char.toNat

/-- Model of Go `strings.HasPrefix` (byte-wise prefix test). -/
def goHasPrefix (s pre : String) : Bool :=
  pre.data.isPrefixOf s.data

/-- Model of `strings.Replace(s, pre, "", 1)` under the assumption that
`pre` is a prefix of `s` (then the first occurrence is the leading one,
also when `pre` is empty, where Go replaces the empty string at position
0 by the empty string, leaving `s` unchanged = dropping 0 characters). -/
def goStripOnce (s pre : String) : String :=
  String.mk (s.data.drop pre.data.length)

/-- Model of `rewritePath` from `host.go`. -/
def rewritePath (path basepath : String) : String :=
  if goHasPrefix path basepath then
    let p := goStripOnce path basepath
    if p = "" then "/" else p
  else path

/-- Model of the `WithBasePath` option from `host.go`: a non-empty base
path that does not start with a slash gets one prepended. -/
def WithBasePath (p : String) : String :=
  if p ≠ "" && !(goHasPrefix p "/") then "/" ++ p else p

/-- Decoded JSON value, the model of Go's `interface{}` holding the result
of `json.Unmarshal`. -/
inductive JValue where
  | null : JValue
  | bool (b : Bool) : JValue
  | num (n : Int) : JValue
  | str (s : String) : JValue
  | arr (xs : List JValue) : JValue
  | obj (fields : List (String × JValue)) : JValue

/-- A decoded JSON object (`map[string]interface{}`). -/
abbrev JObj := List (String × JValue)

/-- Model of `m[k]` plus the comma-ok presence bit: `some v` when the key
is present. -/
def jLookup (m : JObj) (k : String) : Option JValue :=
  (m.find? (fun f => f.1 = k)).map (fun f => f.2)

/-- Key presence test, the model of `_, ok := m[k]`. -/
def jHasKey (m : JObj) (k : String) : Bool :=
  (jLookup m k).isSome

/-- Model of `v.(string)` on an optional map entry: a missing key gives the
nil interface and the assertion on anything but a string panics. -/
def asString : Option JValue → Except Unit String
  | some (JValue.str s) => Except.ok s
  | _ => Except.error ()

/-- Model of Go `http.Header`: a map from header names to value lists,
as an association list with distinct keys.  (Name canonicalisation by
`textproto` is orthogonal to the claims, which use canonical names, and
is not modelled.) -/
abbrev HeaderMap := List (String × List String)

/-- Model of `http.Header.Add`: append the value to the name's list,
creating the entry when absent. -/
def hAdd (h : HeaderMap) (k v : String) : HeaderMap :=
  match h with
  | [] => [(k, [v])]
  | (k', vs) :: rest =>
    if k' = k then (k', vs ++ [v]) :: rest else (k', vs) :: hAdd rest k v

/-- Model of `http.Header.Values`-style lookup: the full value list of a
name, `[]` when absent. -/
def hValues (h : HeaderMap) (k : String) : List String :=
  match h.find? (fun f => f.1 = k) with
  | some f => f.2
  | none => []

/-- Model of `http.Header.Get`: the first value of the name, "" when the
name is absent or its list empty. -/
def hGet (h : HeaderMap) (k : String) : String :=
  (hValues h k).headD ""

/-- Model of the `response` struct from `host.go` (the stored
`*http.Request` is unused by the encoder and omitted).  The Go zero value
of the `status` field is 0. -/
structure Response where
  header : HeaderMap
  wroteHeader : Bool
  status : Int
  buffer : List Nat
deriving DecidableEq

/-- Model of the `response` literal built in the `handle*` functions:
fresh header map, fresh buffer, zero-valued `wroteHeader` and `status`. -/
def initResponse : Response :=
  { header := [], wroteHeader := false, status := 0, buffer := [] }

/-- Model of `response.WriteHeader`: records the code and commits on the
first call, later calls are no-ops. -/
def Response.WriteHeader (r : Response) (statusCode : Int) : Response :=
  if !r.wroteHeader then
    { r with status := statusCode, wroteHeader := true }
  else r

/-- Model of `response.Write`: an uncommitted response first commits with
status 200, then the bytes are appended to the buffer. -/
def Response.Write (r : Response) (p : List Nat) : Response :=
  let r := if !r.wroteHeader then r.WriteHeader 200 else r
  { r with buffer := r.buffer ++ p }

/-- One action the wrapped handler can take on the `http.ResponseWriter`
it is handed: write body bytes, set the status, or add a header value. -/
inductive ROp where
  | write (p : List Nat) : ROp
  | writeHeader (statusCode : Int) : ROp
  | headerAdd (k v : String) : ROp
deriving DecidableEq

/-- Apply one handler action to the captured response. -/
def applyOp (r : Response) : ROp → Response
  | ROp.write p => r.Write p
  | ROp.writeHeader c => r.WriteHeader c
  | ROp.headerAdd k v => { r with header := hAdd r.header k v }

/-- Run a handler's actions in call order, the model of what happens to
the capture during `h.http.ServeHTTP(res, req)`. -/
def applyOps (ops : List ROp) (r : Response) : Response :=
  ops.foldl applyOp r

/-- The standard base64 alphabet as byte values, for
`encoding/base64.StdEncoding`. -/
def b64Alphabet : List Nat :=
  strToBytes "ABCDEFGHIJKLMNOPQRSTUVWXYZabcdefghijklmnopqrstuvwxyz0123456789+/"

/-- The alphabet byte of a 6-bit group. -/
def enc6 (n : Nat) : Nat :=
  b64Alphabet.getD n 0

/-- Position of a byte in a byte list, `none` when absent. -/
def indexIn (xs : List Nat) (c : Nat) : Option Nat :=
  match xs with
  | [] => none
  | x :: rest => if x = c then some 0 else (indexIn rest c).map Nat.succ

/-- The 6-bit group of an alphabet byte, `none` for a byte outside the
alphabet (such as the padding byte 61, i.e. the equals sign). -/
def dec6 (c : Nat) : Option Nat :=
  indexIn b64Alphabet c

/-- Standard base64 encoding with padding, byte list to byte list, the
model of `base64.StdEncoding.EncodeToString` on byte values. -/
def base64Encode : List Nat → List Nat
  | [] => []
  | [b1] => [enc6 (b1 / 4), enc6 (b1 % 4 * 16), 61, 61]
  | [b1, b2] => [enc6 (b1 / 4), enc6 (b1 % 4 * 16 + b2 / 16), enc6 (b2 % 16 * 4), 61]
  | b1 :: b2 :: b3 :: rest =>
    enc6 (b1 / 4) :: enc6 (b1 % 4 * 16 + b2 / 16) :: enc6 (b2 % 16 * 4 + b3 / 64)
      :: enc6 (b3 % 64) :: base64Encode rest

/-- Standard base64 decoding, the model of reading everything from
`base64.NewDecoder(base64.StdEncoding, …)`: four-byte quanta, padding
only in the final quantum, `none` on malformed input.  (The decoder's
tolerance for embedded newlines is not modelled; no claim exercises
it.) -/
def base64Decode : List Nat → Option (List Nat)
  | [] => some []
  | c1 :: c2 :: c3 :: c4 :: rest =>
    (match dec6 c1, dec6 c2 with
    | some a, some b =>
      if c3 = 61 then
        if c4 = 61 ∧ rest = [] then some [a * 4 + b / 16] else none
      else
        (match dec6 c3 with
        | some c =>
          if c4 = 61 then
            if rest = [] then some [a * 4 + b / 16, b % 16 * 16 + c / 4] else none
          else
            (match dec6 c4 with
            | some d => (base64Decode rest).map
                (fun tl => (a * 4 + b / 16) :: (b % 16 * 16 + c / 4) :: (c % 4 * 64 + d) :: tl)
            | none => none)
        | none => none)
    | _, _ => none)
  | _ => none

/-- Whitespace bytes skipped by the content sniffer ("\t\n\x0c\r "). -/
def isSniffWS (b : Nat) : Bool :=
  b = 9 || b = 10 || b = 12 || b = 13 || b = 32

/-- One entry of `net/http`'s sniffing signature table. -/
inductive SniffSig where
  | htmlSig (sig : List Nat) : SniffSig
  | maskedSig (mask pat : List Nat) (skipWS : Bool) (ct : String) : SniffSig
  | exactSig (sig : List Nat) (ct : String) : SniffSig
  | mp4Sig : SniffSig
  | textSig : SniffSig

/-- Case-insensitive byte comparison for HTML tag signatures: where the
signature byte is an upper-case letter, bit 0x20 of the data byte is
cleared before comparing; fails when the data is shorter than the
signature. -/
def htmlMatchBytes : List Nat → List Nat → Bool
  | [], _ => true
  | _ :: _, [] => false
  | b :: sig, db :: data =>
    (if 65 ≤ b ∧ b ≤ 90 then db &&& 223 else db) = b && htmlMatchBytes sig data

/-- HTML tag signature match: the tag bytes, then one byte that must be a
space or a right angle bracket. -/
def htmlSigMatch (sig data : List Nat) : Bool :=
  htmlMatchBytes sig data &&
    (match data.get? sig.length with
     | some db => db = 32 || db = 62
     | none => false)

/-- Masked signature match: each data byte AND the mask byte must equal
the pattern byte; fails when the data is shorter than the pattern. -/
def maskedMatch : List Nat → List Nat → List Nat → Bool
  | [], [], _ => true
  | mb :: mask, pb :: pat, db :: data => (db &&& mb) = pb && maskedMatch mask pat data
  | _, _, _ => false

/-- Big-endian 32-bit read of the first four bytes. -/
def be32 : List Nat → Nat
  | b0 :: b1 :: b2 :: b3 :: _ => b0 * 16777216 + b1 * 65536 + b2 * 256 + b3
  | _ => 0

/-- The scan inside the MP4 signature: every four bytes of the first box,
skipping the minor-version field at offset 12, looking for "mp4". -/
def mp4Scan (data : List Nat) (boxSize st : Nat) : Bool :=
  if st < boxSize then
    if st ≠ 12 ∧ (data.drop st).take 3 = strToBytes "mp4" then true
    else mp4Scan data boxSize (st + 4)
  else false
termination_by boxSize - st

/-- MP4 signature match. -/
def mp4SigMatch (data : List Nat) : Bool :=
  if data.length < 12 then false
  else
    let boxSize := be32 data
    if data.length < boxSize ∨ boxSize % 4 ≠ 0 then false
    else if (data.drop 4).take 4 ≠ strToBytes "ftyp" then false
    else mp4Scan data boxSize 8

/-- Plain-text fallback: no byte may look binary (0x00–0x08, 0x0B,
0x0E–0x1A, 0x1C–0x1F). -/
def textSigMatch (data : List Nat) : Bool :=
  data.all (fun b => !(b ≤ 8 || b = 11 || (14 ≤ b && b ≤ 26) || (28 ≤ b && b ≤ 31)))

/-- Match one signature against the sniffed data (`dataAfterWS` is the
data with leading whitespace dropped, which HTML, whitespace-skipping
masked and text signatures use). -/
def sigMatch (data dataAfterWS : List Nat) : SniffSig → Option String
  | SniffSig.htmlSig sig =>
    if htmlSigMatch sig dataAfterWS then some "text/html; charset=utf-8" else none
  | SniffSig.maskedSig mask pat skipWS ct =>
    if maskedMatch mask pat (if skipWS then dataAfterWS else data) then some ct else none
  | SniffSig.exactSig sig ct =>
    if sig.isPrefixOf data then some ct else none
  | SniffSig.mp4Sig =>
    if mp4SigMatch data then some "video/mp4" else none
  | SniffSig.textSig =>
    if textSigMatch dataAfterWS then some "text/plain; charset=utf-8" else none

/-- The sniffing signature table of `net/http`'s `DetectContentType`, in
table order. -/
def sniffSignatures : List SniffSig := [
  SniffSig.htmlSig (strToBytes "<!DOCTYPE HTML"),
  SniffSig.htmlSig (strToBytes "<HTML"),
  SniffSig.htmlSig (strToBytes "<HEAD"),
  SniffSig.htmlSig (strToBytes "<SCRIPT"),
  SniffSig.htmlSig (strToBytes "<IFRAME"),
  SniffSig.htmlSig (strToBytes "<H1"),
  SniffSig.htmlSig (strToBytes "<DIV"),
  SniffSig.htmlSig (strToBytes "<FONT"),
  SniffSig.htmlSig (strToBytes "<TABLE"),
  SniffSig.htmlSig (strToBytes "<A"),
  SniffSig.htmlSig (strToBytes "<STYLE"),
  SniffSig.htmlSig (strToBytes "<TITLE"),
  SniffSig.htmlSig (strToBytes "<B"),
  SniffSig.htmlSig (strToBytes "<BODY"),
  SniffSig.htmlSig (strToBytes "<BR"),
  SniffSig.htmlSig (strToBytes "<P"),
  SniffSig.htmlSig (strToBytes "<!--"),
  SniffSig.maskedSig (strToBytes "\xFF\xFF\xFF\xFF\xFF") (strToBytes "<?xml") true
    "text/xml; charset=utf-8",
  SniffSig.exactSig (strToBytes "%PDF-") "application/pdf",
  SniffSig.exactSig (strToBytes "%!PS-Adobe-") "application/postscript",
  SniffSig.maskedSig (strToBytes "\xFF\xFF\x00\x00") (strToBytes "\xFE\xFF\x00\x00") false
    "text/plain; charset=utf-16be",
  SniffSig.maskedSig (strToBytes "\xFF\xFF\x00\x00") (strToBytes "\xFF\xFE\x00\x00") false
    "text/plain; charset=utf-16le",
  SniffSig.maskedSig (strToBytes "\xFF\xFF\xFF\x00") (strToBytes "\xEF\xBB\xBF\x00") false
    "text/plain; charset=utf-8",
  SniffSig.exactSig (strToBytes "\x00\x00\x01\x00") "image/x-icon",
  SniffSig.exactSig (strToBytes "\x00\x00\x02\x00") "image/x-icon",
  SniffSig.exactSig (strToBytes "BM") "image/bmp",
  SniffSig.exactSig (strToBytes "GIF87a") "image/gif",
  SniffSig.exactSig (strToBytes "GIF89a") "image/gif",
  SniffSig.maskedSig (strToBytes "\xFF\xFF\xFF\xFF\x00\x00\x00\x00\xFF\xFF\xFF\xFF\xFF\xFF")
    (strToBytes "RIFF\x00\x00\x00\x00WEBPVP") false "image/webp",
  SniffSig.exactSig (strToBytes "\x89PNG\x0D\x0A\x1A\x0A") "image/png",
  SniffSig.exactSig (strToBytes "\xFF\xD8\xFF") "image/jpeg",
  SniffSig.maskedSig (strToBytes "\xFF\xFF\xFF\xFF") (strToBytes ".snd") false "audio/basic",
  SniffSig.maskedSig (strToBytes "\xFF\xFF\xFF\xFF\x00\x00\x00\x00\xFF\xFF\xFF\xFF")
    (strToBytes "FORM\x00\x00\x00\x00AIFF") false "audio/aiff",
  SniffSig.maskedSig (strToBytes "\xFF\xFF\xFF") (strToBytes "ID3") false "audio/mpeg",
  SniffSig.maskedSig (strToBytes "\xFF\xFF\xFF\xFF\xFF") (strToBytes "OggS\x00") false
    "application/ogg",
  SniffSig.maskedSig (strToBytes "\xFF\xFF\xFF\xFF\xFF\xFF\xFF\xFF")
    (strToBytes "MThd\x00\x00\x00\x06") false "audio/midi",
  SniffSig.maskedSig (strToBytes "\xFF\xFF\xFF\xFF\x00\x00\x00\x00\xFF\xFF\xFF\xFF")
    (strToBytes "RIFF\x00\x00\x00\x00AVI ") false "video/avi",
  SniffSig.maskedSig (strToBytes "\xFF\xFF\xFF\xFF\x00\x00\x00\x00\xFF\xFF\xFF\xFF")
    (strToBytes "RIFF\x00\x00\x00\x00WAVE") false "audio/wave",
  SniffSig.mp4Sig,
  SniffSig.exactSig (strToBytes "\x1A\x45\xDF\xA3") "video/webm",
  SniffSig.maskedSig
    (strToBytes "\x00\x00\x00\x00\x00\x00\x00\x00\x00\x00\xFF\xFF\x00\x00\x00\x00\x00\x00\x00\x00\x00\x00\x00\x00\x00\x00\x00\x00\x00\x00\x00\x00\x00\x00\xFF\xFF")
    (strToBytes "\x00\x00\x00\x00\x00\x00\x00\x00\x00\x00LP\x00\x00\x00\x00\x00\x00\x00\x00\x00\x00\x00\x00\x00\x00\x00\x00\x00\x00\x00\x00\x00\x00LP")
    false "application/vnd.ms-fontobject",
  SniffSig.exactSig (strToBytes "\x00\x01\x00\x00") "font/ttf",
  SniffSig.exactSig (strToBytes "OTTO") "font/otf",
  SniffSig.exactSig (strToBytes "ttcf") "font/collection",
  SniffSig.exactSig (strToBytes "wOFF") "font/woff",
  SniffSig.exactSig (strToBytes "wOF2") "font/woff2",
  SniffSig.exactSig (strToBytes "\x1F\x8B\x08") "application/x-gzip",
  SniffSig.exactSig (strToBytes "PK\x03\x04") "application/zip",
  SniffSig.exactSig (strToBytes "Rar!\x1A\x07\x00") "application/x-rar-compressed",
  SniffSig.exactSig (strToBytes "Rar!\x1A\x07\x01\x00") "application/x-rar-compressed",
  SniffSig.exactSig (strToBytes "\x00\x61\x73\x6D") "application/wasm",
  SniffSig.textSig]

/-- Model of `http.DetectContentType`: consider at most the first 512
bytes, try the signatures in table order, fall back to
"application/octet-stream". -/
def detectContentType (data : List Nat) : String :=
  let data := data.take 512
  let dataAfterWS := data.dropWhile isSniffWS
  match sniffSignatures.findSome? (sigMatch data dataAfterWS) with
  | some ct => ct
  | none => "application/octet-stream"

/-- The binary MIME prefix list from `host.go`. -/
def binaryMimeTypes : List String :=
  ["image/", "application/pdf", "application/binary"]

/-- Model of `response.finalise`: when `Get` on Content-Type returns the
empty string, add a sniffed type; when `Get` on Content-Length returns
the empty string, add the buffer length (`fmt.Sprintf "%d"` =
`Nat.repr`). -/
def Response.finalise (r : Response) : Response :=
  let r :=
    if hGet r.header "Content-Type" = "" then
      { r with header := hAdd r.header "Content-Type" (detectContentType r.buffer) }
    else r
  if hGet r.header "Content-Length" = "" then
    { r with header := hAdd r.header "Content-Length" (toString r.buffer.length) }
  else r

/-- The header-folding loop of `response.groupHeaders`: names with exactly
one value go to the single-value map, every other name (its full value
list) to the multi-value map.  (Go iterates a map in unspecified order;
the claims are stated via membership, not order.) -/
def groupHeadersAux : HeaderMap → List (String × String) × List (String × List String)
  | [] => ([], [])
  | (k, v) :: rest =>
    let g := groupHeadersAux rest
    if v.length = 1 then ((k, v.headD "") :: g.1, g.2) else (g.1, (k, v) :: g.2)

/-- Model of `response.groupHeaders`. -/
def Response.groupHeaders (r : Response) :
    List (String × String) × List (String × List String) :=
  groupHeadersAux r.header

/-- Model of `response.isBase64Encoded`: `strings.Index(ct, bmt) == 0` is
exactly the prefix test. -/
def Response.isBase64Encoded (r : Response) : Bool :=
  binaryMimeTypes.any (fun bmt => goHasPrefix (hGet r.header "Content-Type") bmt)

/-- Model of `response.bodyString`, as the bytes of the produced wire body
string (`buffer.String()` reinterprets the same bytes). -/
def Response.bodyString (r : Response) : List Nat :=
  if r.isBase64Encoded then base64Encode r.buffer else r.buffer

/-- The response shape shared by all three wire variants
(`ALBTargetGroupResponse`, `APIGatewayProxyResponse`,
`APIGatewayV2HTTPResponse` carry identical field meanings). -/
structure WireResponse where
  statusCode : Int
  headers : List (String × String)
  multiValueHeaders : List (String × List String)
  body : List Nat
  isBase64Encoded : Bool
deriving DecidableEq

/-- The body stream selected by `extractBodyReader`: a base64 decoder over
the body string, the literal string, or the empty reader. -/
inductive BodySrc where
  | b64 (s : String) : BodySrc
  | lit (s : String) : BodySrc
  | empty : BodySrc
deriving DecidableEq

/-- The bytes the wrapped handler reads from the body stream (`none` when
the base64 decoder reports malformed input). -/
def bodyBytes : BodySrc → Option (List Nat)
  | BodySrc.b64 s => base64Decode (strToBytes s)
  | BodySrc.lit s => some (strToBytes s)
  | BodySrc.empty => some []

/-- Model of `HttpAdapterHandler.extractBodyReader`: a present `body`
string with `isBase64Encoded` present gets the flag asserted as a bool
(a non-bool panics); flag true selects the base64 decoder; otherwise the
literal string; an absent or non-string `body` gives the empty reader. -/
def extractBodyReader (event : JObj) : Except Unit BodySrc :=
  match jLookup event "body" with
  | some (JValue.str body) =>
    (match jLookup event "isBase64Encoded" with
     | some e =>
       (match e with
        | JValue.bool true => Except.ok (BodySrc.b64 body)
        | JValue.bool false => Except.ok (BodySrc.lit body)
        | _ => Except.error ())
     | none => Except.ok (BodySrc.lit body))
  | _ => Except.ok BodySrc.empty

/-- The canonical request handed to the wrapped handler.  (The URL-parsing
details of `http.NewRequest` are not modelled: the path is kept as given
and the query starts empty; no claim exercises a path with an embedded
query string.) -/
structure Request where
  method : String
  path : String
  query : List (String × String)
  header : HeaderMap
  body : BodySrc

/-- The adapter: the wrapped handler (modelled as the list of response
actions it takes for a request) and the configured base path. -/
structure HttpAdapterHandler where
  http : Request → List ROp
  basepath : String

/-- A string-valued object field, the model of `v.(string)` inside the
query/header mapping loops. -/
def jStrField : String × JValue → Except Unit (String × String)
  | (k, JValue.str s) => Except.ok (k, s)
  | _ => Except.error ()

/-- Model of `mapQueryString`: the singular map first (each value asserted
as string), then every value of the multi-value map under its key; a
present non-null field of the wrong type panics.  (Go iterates maps in
unspecified order; the model uses field order.) -/
def mapQueryString (event : JObj) : Except Unit (List (String × String)) := do
  let q1 ← match jLookup event "queryStringParameters" with
    | none => pure []
    | some JValue.null => pure []
    | some (JValue.obj fields) => fields.mapM jStrField
    | some _ => Except.error ()
  let q2 ← match jLookup event "multiValueQueryStringParameters" with
    | none => pure ([] : List (List (String × String)))
    | some JValue.null => pure []
    | some (JValue.obj fields) =>
      fields.mapM (fun f =>
        match f.2 with
        | JValue.arr xs => xs.mapM (fun x =>
            match x with
            | JValue.str s => Except.ok (f.1, s)
            | _ => Except.error ())
        | _ => Except.error ())
    | some _ => Except.error ()
  pure (q1 ++ q2.flatten)

/-- Model of `mapHeaders`: singular entries added first; each multi-value
entry has its values joined with a comma and added as one value; wrong
types panic. -/
def mapHeaders (event : JObj) : Except Unit HeaderMap := do
  let h1 ← match jLookup event "headers" with
    | none => pure []
    | some JValue.null => pure []
    | some (JValue.obj fields) => fields.mapM jStrField
    | some _ => Except.error ()
  let h2 ← match jLookup event "multiValueHeaders" with
    | none => pure ([] : List (String × String))
    | some JValue.null => pure []
    | some (JValue.obj fields) =>
      fields.mapM (fun f =>
        match f.2 with
        | JValue.arr xs =>
          (xs.mapM (fun x =>
            match x with
            | JValue.str s => Except.ok s
            | _ => Except.error ())).map (fun d => (f.1, String.intercalate "," d))
        | _ => Except.error ())
    | some _ => Except.error ()
  pure ((h1 ++ h2).foldl (fun h f => hAdd h f.1 f.2) [])

/-- HTTP token characters, per `net/http`'s method validation. -/
def isTokenChar (c : Char) : Bool :=
  let n := c.toNat
  (48 ≤ n && n ≤ 57) || (65 ≤ n && n ≤ 90) || (97 ≤ n && n ≤ 122) ||
    n = 33 || n = 35 || n = 36 || n = 37 || n = 38 || n = 39 || n = 42 ||
    n = 43 || n = 45 || n = 46 || n = 94 || n = 95 || n = 96 || n = 124 || n = 126

/-- Method validity check of `http.NewRequest`. -/
def validMethod (m : String) : Bool :=
  m.length > 0 && m.data.all isTokenChar

/-- Outcome of one invocation: a wire response (its JSON marshalling is
not modelled), the unsupported-integration error with nil response, a
propagated `http.NewRequest` error, or a Go runtime panic from a failed
type assertion. -/
inductive Outcome where
  | ok (res : WireResponse) : Outcome
  | errUnsupportedIntegration : Outcome
  | errNewRequest : Outcome
  | panicked : Outcome
deriving DecidableEq

/-- The shared tail of the three `handle*` functions: body extraction,
`http.NewRequest` (modelled as the method check, with the empty method
meaning GET), query and header mapping, running the handler on a fresh
capture, finalising, folding headers and building the wire response. -/
def runHttpRound (h : HttpAdapterHandler) (method path : String) (event : JObj) : Outcome :=
  match extractBodyReader event with
  | Except.error _ => Outcome.panicked
  | Except.ok bodySrc =>
    let method := if method = "" then "GET" else method
    if !validMethod method then Outcome.errNewRequest
    else
      match mapQueryString event with
      | Except.error _ => Outcome.panicked
      | Except.ok q =>
        match mapHeaders event with
        | Except.error _ => Outcome.panicked
        | Except.ok hdrs =>
          let req : Request :=
            { method := method, path := path, query := q, header := hdrs, body := bodySrc }
          let res := (applyOps (h.http req) initResponse).finalise
          let g := res.groupHeaders
          Outcome.ok
            { statusCode := res.status, headers := g.1, multiValueHeaders := g.2,
              body := res.bodyString, isBase64Encoded := res.isBase64Encoded }

/-- Model of `handleALBTargetGroupRequest`: `event["path"].(string)` and
`event["httpMethod"].(string)` (each panics on a wrong type), base-path
rewrite, then the shared round. -/
def handleALBTargetGroupRequest (h : HttpAdapterHandler) (event : JObj) : Outcome :=
  match asString (jLookup event "path") with
  | Except.error _ => Outcome.panicked
  | Except.ok path0 =>
    match asString (jLookup event "httpMethod") with
    | Except.error _ => Outcome.panicked
    | Except.ok method => runHttpRound h method (rewritePath path0 h.basepath) event

/-- Model of `handleAPIGatewayProxyRequest` (same field paths and response
field meanings as the ALB variant). -/
def handleAPIGatewayProxyRequest (h : HttpAdapterHandler) (event : JObj) : Outcome :=
  match asString (jLookup event "path") with
  | Except.error _ => Outcome.panicked
  | Except.ok path0 =>
    match asString (jLookup event "httpMethod") with
    | Except.error _ => Outcome.panicked
    | Except.ok method => runHttpRound h method (rewritePath path0 h.basepath) event

/-- Model of `handleAPIGatewayV2HttpRequest`: `rawPath`, then the method
from `requestContext.http.method`, each access asserting its type. -/
def handleAPIGatewayV2HttpRequest (h : HttpAdapterHandler) (event : JObj) : Outcome :=
  match asString (jLookup event "rawPath") with
  | Except.error _ => Outcome.panicked
  | Except.ok path0 =>
    match jLookup event "requestContext" with
    | some (JValue.obj rctx) =>
      (match jLookup rctx "http" with
       | some (JValue.obj httpInfo) =>
         (match asString (jLookup httpInfo "method") with
          | Except.error _ => Outcome.panicked
          | Except.ok method => runHttpRound h method (rewritePath path0 h.basepath) event)
       | _ => Outcome.panicked)
    | _ => Outcome.panicked

/-- Model of `HttpAdapterHandler.Invoke` on an already-decoded JSON
object: assert `requestContext` as an object (panicking otherwise), then
dispatch on the first of the keys `elb`, `http`, `resourcePath`; no
`requestContext`, or none of the keys, gives the unsupported-integration
error with a nil response. -/
def Invoke (h : HttpAdapterHandler) (m : JObj) : Outcome :=
  match jLookup m "requestContext" with
  | some rctx =>
    (match rctx with
     | JValue.obj k =>
       if jHasKey k "elb" then handleALBTargetGroupRequest h m
       else if jHasKey k "http" then handleAPIGatewayV2HttpRequest h m
       else if jHasKey k "resourcePath" then handleAPIGatewayProxyRequest h m
       else Outcome.errUnsupportedIntegration
     | _ => Outcome.panicked)
  | none => Outcome.errUnsupportedIntegration

end Gohybrid

namespace Gohybrid

/-! Theorems for the base-path rewrite claims. -/

/-- When the base path is a prefix of the incoming path, `rewritePath`
strips it exactly once and an empty remainder becomes "/". -/
theorem rewritePath_strip (basepath rest path : String)
    (h : path = basepath ++ rest) :
    rewritePath path basepath = (if rest = "" then "/" else rest) := by
  have hdata : path.data = basepath.data ++ rest.data := by
    rw [h, String.data_append]
  have hpre : goHasPrefix path basepath = true := by
    unfold goHasPrefix
    rw [List.isPrefixOf_iff_prefix, hdata]
    exact ⟨rest.data, rfl⟩
  have hstrip : goStripOnce path basepath = rest := by
    unfold goStripOnce
    rw [hdata, List.drop_left]
  rw [rewritePath, hpre, if_pos rfl, hstrip]

/-- C6: with the base path a prefix of the incoming path, `rewritePath`
strips it exactly once and an empty remainder becomes "/"; a path that
does not start with the prefix is left unmodified; concretely with prefix
"/api": "/api/foo" ↦ "/foo", "/api" ↦ "/", "/other" stays "/other". -/
theorem rewritePath_spec (basepath rest path : String)
    (h : path = basepath ++ rest) :
    rewritePath path basepath = (if rest = "" then "/" else rest)
    ∧ (∀ p bp : String, goHasPrefix p bp = false → rewritePath p bp = p)
    ∧ rewritePath "/api/foo" "/api" = "/foo"
    ∧ rewritePath "/api" "/api" = "/"
    ∧ rewritePath "/other" "/api" = "/other" := by
  refine ⟨rewritePath_strip basepath rest path h, ?_, by decide, by decide, by decide⟩
  intro p bp hnp
  rw [rewritePath, hnp]
  simp

/-- C6 witness. -/
theorem rewritePath_spec_witness :
    rewritePath "/api/foo" "/api" = "/foo" :=
  (rewritePath_spec "/api" "/foo" "/api/foo" rfl).2.2.1

/-- C9 counterexample: the incoming path "/apple" is absolute and
non-empty, yet with configured base path "/ap" (itself absolute, as
`WithBasePath` guarantees) the rewritten path is "ple", which does not
start with "/" — the absoluteness invariant fails. -/
theorem rewritePath_not_absolute_counterexample :
    goHasPrefix "/apple" "/" = true
    ∧ WithBasePath "/ap" = "/ap"
    ∧ rewritePath "/apple" "/ap" = "ple"
    ∧ goHasPrefix "ple" "/" = false := by
  refine ⟨by decide, by decide, ?_, by decide⟩
  decide

/-- C9 amended: for every absolute incoming path and every base path, the
rewritten path is never empty; it starts with "/" whenever the base path
does not match, and also whenever the stripped remainder is empty or
itself starts with "/" (i.e. the prefix match ends at a segment
boundary). -/
theorem rewritePath_nonempty_spec (path bp : String)
    (habs : goHasPrefix path "/" = true) :
    rewritePath path bp ≠ ""
    ∧ (goHasPrefix path bp = false → goHasPrefix (rewritePath path bp) "/" = true)
    ∧ (∀ rest : String, path = bp ++ rest → rest = "" ∨ goHasPrefix rest "/" = true →
        goHasPrefix (rewritePath path bp) "/" = true) := by
  have hpathne : path ≠ "" := by
    intro he
    rw [he] at habs
    exact absurd habs (by decide)
  refine ⟨?_, ?_, ?_⟩
  · rw [rewritePath]
    by_cases hp : goHasPrefix path bp = true
    · rw [hp]
      simp only [if_true]
      by_cases he : goStripOnce path bp = ""
      · rw [if_pos he]; decide
      · rw [if_neg he]; exact he
    · rw [Bool.not_eq_true] at hp
      rw [hp]
      simpa using hpathne
  · intro hnp
    rw [rewritePath, hnp]
    simpa using habs
  · intro rest hsplit hrest
    rw [rewritePath_strip bp rest path hsplit]
    rcases hrest with he | habs'
    · rw [if_pos he]; decide
    · have hne : rest ≠ "" := by
        intro he; rw [he] at habs'; exact absurd habs' (by decide)
      rw [if_neg hne]; exact habs'

/-- C9 amended witness. -/
theorem rewritePath_nonempty_spec_witness :
    rewritePath "/api" "/api" ≠ "" :=
  (rewritePath_nonempty_spec "/api" "/api" (by decide)).1

/-! Theorems for the response-capture state machine. -/

/-- Once committed, the capture stays committed under any further handler
actions. -/
theorem wroteHeader_mono (ops : List ROp) (r : Response)
    (h : r.wroteHeader = true) : (applyOps ops r).wroteHeader = true := by
  induction ops generalizing r with
  | nil => exact h
  | cons op rest ih =>
    apply ih
    cases op with
    | write p => simp [applyOps, applyOp, Response.Write, Response.WriteHeader, h]
    | writeHeader c => simp [applyOps, applyOp, Response.WriteHeader, h]
    | headerAdd k v => simpa [applyOps, applyOp] using h

/-- C2: on an uncommitted capture, `WriteHeader code` records `code` and
commits; a `Write` on an uncommitted capture commits with status 200 and
appends the bytes (leaving headers untouched); on a committed capture
`WriteHeader` is a no-op and stays a no-op after any further actions; in
particular `WriteHeader 500` issued after body bytes were written leaves
the final status at 200. -/
theorem response_commit_spec (r : Response) (c : Int) (p : List Nat) :
    (r.wroteHeader = false →
      (r.WriteHeader c).status = c ∧ (r.WriteHeader c).wroteHeader = true)
    ∧ (r.wroteHeader = false →
      (r.Write p).status = 200 ∧ (r.Write p).wroteHeader = true
        ∧ (r.Write p).buffer = r.buffer ++ p ∧ (r.Write p).header = r.header)
    ∧ (r.wroteHeader = true → r.WriteHeader c = r)
    ∧ (∀ ops : List ROp, r.wroteHeader = true →
        ((applyOps ops r).WriteHeader c) = applyOps ops r)
    ∧ (∀ bytes : List Nat,
        (applyOps [ROp.write bytes, ROp.writeHeader 500] initResponse).status = 200) := by
  refine ⟨?_, ?_, ?_, ?_, ?_⟩
  · intro h
    simp [Response.WriteHeader, h]
  · intro h
    simp [Response.Write, Response.WriteHeader, h]
  · intro h
    simp [Response.WriteHeader, h]
  · intro ops h
    have := wroteHeader_mono ops r h
    simp [Response.WriteHeader, this]
  · intro bytes
    simp [applyOps, applyOp, Response.Write, Response.WriteHeader, initResponse]

/-! Base64 round trip and the body-stream claims. -/

/-- Decoding an alphabet byte recovers its 6-bit group. -/
theorem dec6_enc6 : ∀ n < 64, dec6 (enc6 n) = some n := by decide

/-- No alphabet byte is the padding byte 61. -/
theorem enc6_ne_pad : ∀ n < 64, enc6 n ≠ 61 := by decide

/-- Standard base64 decoding inverts encoding on byte values. -/
theorem base64_round_trip (bs : List Nat) (h : ∀ b ∈ bs, b < 256) :
    base64Decode (base64Encode bs) = some bs := by
  induction bs using base64Encode.induct with
  | case1 => rfl
  | case2 b1 =>
    have hb1 : b1 < 256 := h b1 (by simp)
    have h1 := dec6_enc6 (b1 / 4) (by omega)
    have h2 := dec6_enc6 (b1 % 4 * 16) (by omega)
    have e : b1 / 4 * 4 + b1 % 4 * 16 / 16 = b1 := by omega
    simp [base64Encode, base64Decode, h1, h2]
    omega
  | case3 b1 b2 =>
    have hb1 : b1 < 256 := h b1 (by simp)
    have hb2 : b2 < 256 := h b2 (by simp)
    have h1 := dec6_enc6 (b1 / 4) (by omega)
    have h2 := dec6_enc6 (b1 % 4 * 16 + b2 / 16) (by omega)
    have h3 := dec6_enc6 (b2 % 16 * 4) (by omega)
    have hne3 := enc6_ne_pad (b2 % 16 * 4) (by omega)
    have e1 : b1 / 4 * 4 + (b1 % 4 * 16 + b2 / 16) / 16 = b1 := by omega
    have e2 : (b1 % 4 * 16 + b2 / 16) % 16 * 16 + b2 % 16 * 4 / 4 = b2 := by omega
    simp [base64Encode, base64Decode, h1, h2, h3, hne3]
    omega
  | case4 b1 b2 b3 rest ih =>
    have hb1 : b1 < 256 := h b1 (by simp)
    have hb2 : b2 < 256 := h b2 (by simp)
    have hb3 : b3 < 256 := h b3 (by simp)
    have ih' := ih (fun b hb => h b (by simp [hb]))
    have h1 := dec6_enc6 (b1 / 4) (by omega)
    have h2 := dec6_enc6 (b1 % 4 * 16 + b2 / 16) (by omega)
    have h3 := dec6_enc6 (b2 % 16 * 4 + b3 / 64) (by omega)
    have h4 := dec6_enc6 (b3 % 64) (by omega)
    have hne3 := enc6_ne_pad (b2 % 16 * 4 + b3 / 64) (by omega)
    have hne4 := enc6_ne_pad (b3 % 64) (by omega)
    have e1 : b1 / 4 * 4 + (b1 % 4 * 16 + b2 / 16) / 16 = b1 := by omega
    have e2 : (b1 % 4 * 16 + b2 / 16) % 16 * 16 + (b2 % 16 * 4 + b3 / 64) / 4 = b2 := by
      omega
    have e3 : (b2 % 16 * 4 + b3 / 64) % 4 * 64 + b3 % 64 = b3 := by omega
    simp [base64Encode, base64Decode, h1, h2, h3, h4, hne3, hne4, ih']
    refine ⟨by omega, by omega, by omega⟩

/-- C7: a `body` string with `isBase64Encoded` true gives the handler the
standard-base64 decoding of the string (stated via the encoding round
trip); with the flag absent or false the string's bytes are taken
literally; with no `body` field the body stream is empty. -/
theorem extractBody_spec :
    (∀ (ev : JObj) (s : String) (bs : List Nat),
        jLookup ev "body" = some (JValue.str s) →
        jLookup ev "isBase64Encoded" = some (JValue.bool true) →
        strToBytes s = base64Encode bs → (∀ b ∈ bs, b < 256) →
        extractBodyReader ev = Except.ok (BodySrc.b64 s)
          ∧ bodyBytes (BodySrc.b64 s) = some bs)
    ∧ (∀ (ev : JObj) (s : String),
        jLookup ev "body" = some (JValue.str s) →
        (jLookup ev "isBase64Encoded" = none
          ∨ jLookup ev "isBase64Encoded" = some (JValue.bool false)) →
        extractBodyReader ev = Except.ok (BodySrc.lit s)
          ∧ bodyBytes (BodySrc.lit s) = some (strToBytes s))
    ∧ (∀ ev : JObj, jLookup ev "body" = none →
        extractBodyReader ev = Except.ok BodySrc.empty
          ∧ bodyBytes BodySrc.empty = some []) := by
  refine ⟨?_, ?_, ?_⟩
  · intro ev s bs hbody hflag henc hlt
    constructor
    · rw [extractBodyReader, hbody, hflag]
    · rw [bodyBytes, henc, base64_round_trip bs hlt]
  · intro ev s hbody hflag
    constructor
    · rcases hflag with hf | hf <;> rw [extractBodyReader, hbody, hf]
    · rfl
  · intro ev hbody
    constructor
    · rw [extractBodyReader, hbody]
    · rfl

/-- C7 witness. -/
theorem extractBody_spec_witness :
    extractBodyReader [("body", JValue.str "aGVsbG8="), ("isBase64Encoded", JValue.bool true)]
        = Except.ok (BodySrc.b64 "aGVsbG8=")
      ∧ bodyBytes (BodySrc.b64 "aGVsbG8=") = some (strToBytes "hello") :=
  extractBody_spec.1 [("body", JValue.str "aGVsbG8="), ("isBase64Encoded", JValue.bool true)]
    "aGVsbG8=" (strToBytes "hello") rfl rfl (by decide) (by decide)

/-- C2 witness. -/
theorem response_commit_spec_witness :
    (initResponse.WriteHeader 500).status = 500
    ∧ (applyOps [ROp.write (strToBytes "hi"), ROp.writeHeader 500] initResponse).status = 200 :=
  ⟨((response_commit_spec initResponse 500 []).1 (by decide)).1,
   (response_commit_spec initResponse 500 []).2.2.2.2 (strToBytes "hi")⟩

/-! Lemmas about the header map, and the encoder claims. -/

/-- Adding a value appends it to the name's value list. -/
theorem hValues_hAdd_self (h : HeaderMap) (k v : String) :
    hValues (hAdd h k v) k = hValues h k ++ [v] := by
  induction h with
  | nil => simp [hAdd, hValues, List.find?]
  | cons f rest ih =>
    by_cases he : f.1 = k
    · simp [hAdd, hValues, List.find?, he]
    · simp only [hAdd]
      rw [if_neg he]
      simp only [hValues, List.find?] at ih ⊢
      rw [decide_eq_false he]
      simpa using ih

/-- Adding a value leaves every other name's value list unchanged. -/
theorem hValues_hAdd_other (h : HeaderMap) (k v k' : String) (hne : k ≠ k') :
    hValues (hAdd h k v) k' = hValues h k' := by
  induction h with
  | nil => simp [hAdd, hValues, List.find?, hne]
  | cons f rest ih =>
    by_cases he : f.1 = k
    · simp only [hAdd]
      rw [if_pos he]
      simp only [hValues, List.find?]
      rw [he]
      simp only [decide_eq_false hne]
    · simp only [hAdd]
      rw [if_neg he]
      simp only [hValues, List.find?] at ih ⊢
      by_cases he' : f.1 = k'
      · rw [decide_eq_true he']
      · rw [decide_eq_false he']
        exact ih

/-- The first value of any other name is likewise unchanged. -/
theorem hGet_hAdd_other (h : HeaderMap) (k v k' : String) (hne : k ≠ k') :
    hGet (hAdd h k v) k' = hGet h k' := by
  rw [hGet, hGet, hValues_hAdd_other h k v k' hne]

/-- The header map of a finalised response, with the two conditional adds
spelt out. -/
theorem finalise_header_eq (r : Response) :
    r.finalise.header =
      (if hGet (if hGet r.header "Content-Type" = ""
            then hAdd r.header "Content-Type" (detectContentType r.buffer)
            else r.header) "Content-Length" = ""
       then hAdd (if hGet r.header "Content-Type" = ""
            then hAdd r.header "Content-Type" (detectContentType r.buffer)
            else r.header) "Content-Length" (toString r.buffer.length)
       else (if hGet r.header "Content-Type" = ""
            then hAdd r.header "Content-Type" (detectContentType r.buffer)
            else r.header)) := by
  by_cases hct : hGet r.header "Content-Type" = ""
  · by_cases hcl : hGet (hAdd r.header "Content-Type" (detectContentType r.buffer))
        "Content-Length" = ""
    · simp [Response.finalise, hct, hcl]
    · simp [Response.finalise, hct, hcl]
  · by_cases hcl : hGet r.header "Content-Length" = ""
    · simp [Response.finalise, hct, hcl]
    · simp [Response.finalise, hct, hcl]

/-- C5 counterexample: a handler that sets the Content-Type header to the
empty string has set a Content-Type header, yet `finalise` treats it as
unset and appends a sniffed value, so the header the handler set does not
stay unchanged. -/
theorem finalise_changes_empty_content_type :
    hValues (applyOps [ROp.headerAdd "Content-Type" ""] initResponse).header
        "Content-Type" = [""]
    ∧ hValues (applyOps [ROp.headerAdd "Content-Type" ""] initResponse).finalise.header
        "Content-Type" = ["", "text/plain; charset=utf-8"]
    ∧ (["", "text/plain; charset=utf-8"] : List String) ≠ [""] := by
  refine ⟨rfl, ?_, by decide⟩
  rfl

/-- C5 amended: `finalise` treats a Content-Type (resp. Content-Length)
whose `Get` value is empty — absent, or present with an empty first
value — as unset and appends the sniffed type (resp. the exact buffered
byte count); the sniffed type only depends on the first 512 buffered
bytes; names whose `Get` value is non-empty, and all other names, keep
their value lists; concretely, a handler that only writes "world" ends
with Content-Type "text/plain; charset=utf-8" and Content-Length "5". -/
theorem finalise_spec (r : Response) :
    (hGet r.header "Content-Type" = "" →
      hValues r.finalise.header "Content-Type"
        = hValues r.header "Content-Type" ++ [detectContentType r.buffer])
    ∧ (hGet r.header "Content-Length" = "" →
      hValues r.finalise.header "Content-Length"
        = hValues r.header "Content-Length" ++ [toString r.buffer.length])
    ∧ detectContentType r.buffer = detectContentType (r.buffer.take 512)
    ∧ (hGet r.header "Content-Type" ≠ "" →
        hValues r.finalise.header "Content-Type" = hValues r.header "Content-Type")
    ∧ (hGet r.header "Content-Length" ≠ "" →
        hValues r.finalise.header "Content-Length" = hValues r.header "Content-Length")
    ∧ (∀ k : String, k ≠ "Content-Type" → k ≠ "Content-Length" →
        hValues r.finalise.header k = hValues r.header k)
    ∧ hGet (applyOps [ROp.write (strToBytes "world")] initResponse).finalise.header
        "Content-Type" = "text/plain; charset=utf-8"
    ∧ hGet (applyOps [ROp.write (strToBytes "world")] initResponse).finalise.header
        "Content-Length" = "5" := by
  refine ⟨?_, ?_, ?_, ?_, ?_, ?_, ?_, ?_⟩
  · intro hct
    rw [finalise_header_eq, if_pos hct]
    by_cases hcl : hGet (hAdd r.header "Content-Type" (detectContentType r.buffer))
        "Content-Length" = ""
    · rw [if_pos hcl,
        hValues_hAdd_other _ "Content-Length" _ "Content-Type" (by decide),
        hValues_hAdd_self]
    · rw [if_neg hcl, hValues_hAdd_self]
  · intro hcl
    rw [finalise_header_eq]
    by_cases hct : hGet r.header "Content-Type" = ""
    · rw [if_pos hct]
      have hcl' : hGet (hAdd r.header "Content-Type" (detectContentType r.buffer))
          "Content-Length" = "" := by
        rw [hGet_hAdd_other _ "Content-Type" _ "Content-Length" (by decide)]
        exact hcl
      rw [if_pos hcl', hValues_hAdd_self,
        hValues_hAdd_other _ "Content-Type" _ "Content-Length" (by decide)]
    · rw [if_neg hct, if_pos hcl, hValues_hAdd_self]
  · rw [detectContentType, detectContentType]
    simp [List.take_take]
  · intro hct
    rw [finalise_header_eq, if_neg hct]
    by_cases hcl : hGet r.header "Content-Length" = ""
    · rw [if_pos hcl, hValues_hAdd_other _ "Content-Length" _ "Content-Type" (by decide)]
    · rw [if_neg hcl]
  · intro hcl
    rw [finalise_header_eq]
    by_cases hct : hGet r.header "Content-Type" = ""
    · rw [if_pos hct]
      have hcl' : hGet (hAdd r.header "Content-Type" (detectContentType r.buffer))
          "Content-Length" = hGet r.header "Content-Length" :=
        hGet_hAdd_other _ "Content-Type" _ "Content-Length" (by decide)
      rw [hcl', if_neg hcl,
        hValues_hAdd_other _ "Content-Type" _ "Content-Length" (by decide)]
    · rw [if_neg hct, if_neg hcl]
  · intro k hkct hkcl
    rw [finalise_header_eq]
    by_cases hct : hGet r.header "Content-Type" = ""
    · rw [if_pos hct]
      by_cases hcl : hGet (hAdd r.header "Content-Type" (detectContentType r.buffer))
          "Content-Length" = ""
      · rw [if_pos hcl, hValues_hAdd_other _ "Content-Length" _ k (Ne.symm hkcl),
          hValues_hAdd_other _ "Content-Type" _ k (Ne.symm hkct)]
      · rw [if_neg hcl, hValues_hAdd_other _ "Content-Type" _ k (Ne.symm hkct)]
    · rw [if_neg hct]
      by_cases hcl : hGet r.header "Content-Length" = ""
      · rw [if_pos hcl, hValues_hAdd_other _ "Content-Length" _ k (Ne.symm hkcl)]
      · rw [if_neg hcl]
  · rfl
  · rfl

/-- C5 amended witness. -/
theorem finalise_spec_witness :
    hValues initResponse.finalise.header "Content-Type"
      = hValues initResponse.header "Content-Type"
        ++ [detectContentType initResponse.buffer] :=
  (finalise_spec initResponse).1 rfl

/-- C3: when the finalized Content-Type value has one of the binary MIME
prefixes as a literal prefix, the wire body is the base64 encoding of the
buffered bytes and the flag is true; otherwise the wire body is the
buffered bytes taken literally and the flag is false; concretely, setting
Content-Type "image/jpeg" and writing "world" produces base64("world") =
"d29ybGQ=" with the flag true. -/
theorem encoder_binary_spec (r : Response) :
    ((∃ bmt ∈ binaryMimeTypes, goHasPrefix (hGet r.header "Content-Type") bmt = true) →
      r.isBase64Encoded = true ∧ r.bodyString = base64Encode r.buffer)
    ∧ ((∀ bmt ∈ binaryMimeTypes, goHasPrefix (hGet r.header "Content-Type") bmt = false) →
      r.isBase64Encoded = false ∧ r.bodyString = r.buffer)
    ∧ ((applyOps [ROp.headerAdd "Content-Type" "image/jpeg",
          ROp.write (strToBytes "world")] initResponse).finalise.bodyString
        = strToBytes "d29ybGQ="
      ∧ (applyOps [ROp.headerAdd "Content-Type" "image/jpeg",
          ROp.write (strToBytes "world")] initResponse).finalise.isBase64Encoded
        = true) := by
  refine ⟨?_, ?_, by decide, by decide⟩
  · intro hex
    have hflag : r.isBase64Encoded = true := by
      rw [Response.isBase64Encoded, List.any_eq_true]
      rcases hex with ⟨bmt, hmem, hpre⟩
      exact ⟨bmt, hmem, hpre⟩
    refine ⟨hflag, ?_⟩
    rw [Response.bodyString, if_pos hflag]
  · intro hall
    have hflag : r.isBase64Encoded = false := by
      rw [Response.isBase64Encoded, List.any_eq_false]
      intro bmt hmem
      simp [hall bmt hmem]
    refine ⟨hflag, ?_⟩
    rw [Response.bodyString, if_neg (by simp [hflag])]

/-- C3 witness. -/
theorem encoder_binary_spec_witness :
    (applyOps [ROp.headerAdd "Content-Type" "image/jpeg",
        ROp.write (strToBytes "world")] initResponse).finalise.isBase64Encoded = true
    ∧ (applyOps [ROp.headerAdd "Content-Type" "image/jpeg",
        ROp.write (strToBytes "world")] initResponse).finalise.bodyString
      = base64Encode (applyOps [ROp.headerAdd "Content-Type" "image/jpeg",
        ROp.write (strToBytes "world")] initResponse).finalise.buffer :=
  (encoder_binary_spec _).1 ⟨"image/", by decide, by decide⟩

/-! Header folding. -/

/-- Every name in the single-value map came from the header map. -/
theorem groupHeadersAux_left_sub (hdr : HeaderMap) (k : String)
    (h : k ∈ (groupHeadersAux hdr).1.map Prod.fst) : k ∈ hdr.map Prod.fst := by
  induction hdr with
  | nil => simp [groupHeadersAux] at h
  | cons f rest ih =>
    by_cases hl : f.2.length = 1
    · simp only [groupHeadersAux, if_pos hl] at h
      simp only [List.map_cons, List.mem_cons] at h ⊢
      rcases h with h | h
      · exact Or.inl h
      · exact Or.inr (ih h)
    · simp only [groupHeadersAux, if_neg hl] at h
      simp only [List.map_cons, List.mem_cons]
      exact Or.inr (ih h)

/-- Every name in the multi-value map came from the header map. -/
theorem groupHeadersAux_right_sub (hdr : HeaderMap) (k : String)
    (h : k ∈ (groupHeadersAux hdr).2.map Prod.fst) : k ∈ hdr.map Prod.fst := by
  induction hdr with
  | nil => simp [groupHeadersAux] at h
  | cons f rest ih =>
    by_cases hl : f.2.length = 1
    · simp only [groupHeadersAux, if_pos hl] at h
      simp only [List.map_cons, List.mem_cons]
      exact Or.inr (ih h)
    · simp only [groupHeadersAux, if_neg hl] at h
      simp only [List.map_cons, List.mem_cons] at h ⊢
      rcases h with h | h
      · exact Or.inl h
      · exact Or.inr (ih h)

/-- A name with exactly one value lands in the single-value map (with that
value) and not in the multi-value map. -/
theorem groupHeadersAux_single (hdr : HeaderMap) (k : String) (vs : List String)
    (hnd : (hdr.map Prod.fst).Nodup) (hmem : (k, vs) ∈ hdr) (hl : vs.length = 1) :
    (k, vs.headD "") ∈ (groupHeadersAux hdr).1
      ∧ k ∉ (groupHeadersAux hdr).2.map Prod.fst := by
  induction hdr with
  | nil => cases hmem
  | cons f rest ih =>
    rw [List.map_cons, List.nodup_cons] at hnd
    rcases List.mem_cons.mp hmem with heq | hmem'
    · subst heq
      simp only [groupHeadersAux, if_pos hl]
      refine ⟨List.mem_cons_self _ _, fun hin => hnd.1 ?_⟩
      exact groupHeadersAux_right_sub rest k hin
    · have hkr : k ∈ rest.map Prod.fst :=
        List.mem_map.mpr ⟨(k, vs), hmem', rfl⟩
      have hne : f.1 ≠ k := fun he => hnd.1 (he ▸ hkr)
      have ihr := ih hnd.2 hmem'
      by_cases hfl : f.2.length = 1
      · simp only [groupHeadersAux, if_pos hfl]
        exact ⟨List.mem_cons_of_mem _ ihr.1, ihr.2⟩
      · simp only [groupHeadersAux, if_neg hfl]
        refine ⟨ihr.1, ?_⟩
        simp only [List.map_cons, List.mem_cons]
        rintro (h | h)
        · exact hne h.symm
        · exact ihr.2 h

/-- A name with any other value count lands (with its full list) in the
multi-value map and not in the single-value map. -/
theorem groupHeadersAux_multi (hdr : HeaderMap) (k : String) (vs : List String)
    (hnd : (hdr.map Prod.fst).Nodup) (hmem : (k, vs) ∈ hdr) (hl : vs.length ≠ 1) :
    (k, vs) ∈ (groupHeadersAux hdr).2
      ∧ k ∉ (groupHeadersAux hdr).1.map Prod.fst := by
  induction hdr with
  | nil => cases hmem
  | cons f rest ih =>
    rw [List.map_cons, List.nodup_cons] at hnd
    rcases List.mem_cons.mp hmem with heq | hmem'
    · subst heq
      simp only [groupHeadersAux, if_neg hl]
      refine ⟨List.mem_cons_self _ _, fun hin => hnd.1 ?_⟩
      exact groupHeadersAux_left_sub rest k hin
    · have hkr : k ∈ rest.map Prod.fst :=
        List.mem_map.mpr ⟨(k, vs), hmem', rfl⟩
      have hne : f.1 ≠ k := fun he => hnd.1 (he ▸ hkr)
      have ihr := ih hnd.2 hmem'
      by_cases hfl : f.2.length = 1
      · simp only [groupHeadersAux, if_pos hfl]
        refine ⟨ihr.1, ?_⟩
        simp only [List.map_cons, List.mem_cons]
        rintro (h | h)
        · exact hne h.symm
        · exact ihr.2 h
      · simp only [groupHeadersAux, if_neg hfl]
        exact ⟨List.mem_cons_of_mem _ ihr.1, ihr.2⟩

/-- C4: header folding places every header name in exactly one of the two
wire maps: a name that accumulated exactly one value goes to the
single-value map with that value and not to the multi-value map, and a
name that accumulated two or more values goes to the multi-value map with
its full ordered value list and not to the single-value map. -/
theorem groupHeaders_exclusive_spec (r : Response) (k : String) (vs : List String)
    (hnd : (r.header.map Prod.fst).Nodup) (hmem : (k, vs) ∈ r.header) :
    (k ∈ r.groupHeaders.1.map Prod.fst ∨ k ∈ r.groupHeaders.2.map Prod.fst)
    ∧ ¬(k ∈ r.groupHeaders.1.map Prod.fst ∧ k ∈ r.groupHeaders.2.map Prod.fst)
    ∧ (vs.length = 1 →
        (k, vs.headD "") ∈ r.groupHeaders.1 ∧ k ∉ r.groupHeaders.2.map Prod.fst)
    ∧ (2 ≤ vs.length →
        (k, vs) ∈ r.groupHeaders.2 ∧ k ∉ r.groupHeaders.1.map Prod.fst) := by
  rw [Response.groupHeaders]
  by_cases hl : vs.length = 1
  · have h1 := groupHeadersAux_single r.header k vs hnd hmem hl
    refine ⟨Or.inl (List.mem_map.mpr ⟨_, h1.1, rfl⟩), fun hb => h1.2 hb.2,
      fun _ => h1, fun h2 => absurd hl (by omega)⟩
  · have h1 := groupHeadersAux_multi r.header k vs hnd hmem hl
    refine ⟨Or.inr (List.mem_map.mpr ⟨_, h1.1, rfl⟩), fun hb => h1.2 hb.1,
      fun he => absurd he hl, fun _ => h1⟩

/-- C4 witness. -/
theorem groupHeaders_exclusive_spec_witness :
    ("X-Tag", ["a", "b"]) ∈ (Response.groupHeaders
        { header := [("X-One", ["1"]), ("X-Tag", ["a", "b"])],
          wroteHeader := true, status := 200, buffer := [] }).2
    ∧ "X-Tag" ∉ (Response.groupHeaders
        { header := [("X-One", ["1"]), ("X-Tag", ["a", "b"])],
          wroteHeader := true, status := 200, buffer := [] }).1.map Prod.fst :=
  (groupHeaders_exclusive_spec
    { header := [("X-One", ["1"]), ("X-Tag", ["a", "b"])],
      wroteHeader := true, status := 200, buffer := [] }
    "X-Tag" ["a", "b"] (by decide) (by decide)).2.2.2 (by decide)

/-! Event classification and whole-invocation claims. -/

/-- C1 counterexample: an event whose `requestContext` is present but not
a JSON object makes `Invoke` panic on the failed type assertion instead
of returning the UnsupportedIntegration error the claim promises for a
context with none of the three keys. -/
theorem invoke_nonobject_requestContext_counterexample :
    Invoke ⟨fun _ => [], ""⟩ [("requestContext", JValue.str "x")] = Outcome.panicked
    ∧ Outcome.panicked ≠ Outcome.errUnsupportedIntegration :=
  ⟨rfl, by decide⟩

/-- C1 amended: when `requestContext` is present and holds a JSON object,
Invoke dispatches on the first present key among `elb`, `http`,
`resourcePath` (first match wins); an object context with none of the
three keys, or an absent `requestContext`, yields the
UnsupportedIntegration error with a nil response — the result is the
same for every wrapped handler, so the handler is never invoked; a
present non-object `requestContext` instead panics. -/
theorem invoke_dispatch_spec (h : HttpAdapterHandler) (m : JObj) (k : JObj) :
    (jLookup m "requestContext" = some (JValue.obj k) →
      (jHasKey k "elb" = true → Invoke h m = handleALBTargetGroupRequest h m)
      ∧ (jHasKey k "elb" = false → jHasKey k "http" = true →
          Invoke h m = handleAPIGatewayV2HttpRequest h m)
      ∧ (jHasKey k "elb" = false → jHasKey k "http" = false →
          jHasKey k "resourcePath" = true →
          Invoke h m = handleAPIGatewayProxyRequest h m)
      ∧ (jHasKey k "elb" = false → jHasKey k "http" = false →
          jHasKey k "resourcePath" = false →
          Invoke h m = Outcome.errUnsupportedIntegration))
    ∧ (jLookup m "requestContext" = none →
        Invoke h m = Outcome.errUnsupportedIntegration)
    ∧ (∀ rc : JValue, jLookup m "requestContext" = some rc →
        (∀ fields : JObj, rc ≠ JValue.obj fields) →
        Invoke h m = Outcome.panicked) := by
  refine ⟨?_, ?_, ?_⟩
  · intro hrc
    refine ⟨fun he => ?_, fun he hh => ?_, fun he hh hr => ?_, fun he hh hr => ?_⟩
    · simp [Invoke, hrc, he]
    · simp [Invoke, hrc, he, hh]
    · simp [Invoke, hrc, he, hh, hr]
    · simp [Invoke, hrc, he, hh, hr]
  · intro hrc
    simp [Invoke, hrc]
  · intro rc hrc hno
    rw [Invoke, hrc]
    cases rc with
    | obj fields => exact absurd rfl (hno fields)
    | null => rfl
    | bool b => rfl
    | num n => rfl
    | str s => rfl
    | arr xs => rfl

/-- C1 amended witness. -/
theorem invoke_dispatch_spec_witness :
    Invoke ⟨fun _ => [], "/api"⟩ [("requestContext", JValue.obj [("other", JValue.null)])]
      = Outcome.errUnsupportedIntegration :=
  ((invoke_dispatch_spec ⟨fun _ => [], "/api"⟩
      [("requestContext", JValue.obj [("other", JValue.null)])]
      [("other", JValue.null)]).1 rfl).2.2.2 rfl rfl rfl

/-- C8: an ALB-marked event whose `path` field holds a number makes the
invocation panic on the failed `event["path"].(string)` assertion — the
model has no MalformedEvent outcome at all, the wrong-typed field is a
Go runtime panic, not a typed error returned to the caller. -/
theorem invoke_wrong_type_panics :
    Invoke ⟨fun _ => [], ""⟩
      [("requestContext", JValue.obj [("elb", JValue.null)]), ("path", JValue.num 1)]
      = Outcome.panicked := rfl

/-- C10: the `response` literal leaves `status` at Go's zero value 0, so a
wrapped handler that returns without calling WriteHeader and without
writing any body bytes produces a wire response with statusCode 0, not
the claimed default of 200. -/
theorem invoke_no_write_status_zero :
    Invoke ⟨fun _ => [], ""⟩
      [("requestContext", JValue.obj [("elb", JValue.null)]),
       ("path", JValue.str "/"), ("httpMethod", JValue.str "GET")]
      = Outcome.ok { statusCode := 0,
                     headers := [("Content-Type", "text/plain; charset=utf-8"),
                                 ("Content-Length", "0")],
                     multiValueHeaders := [], body := [], isBase64Encoded := false }
    ∧ (0 : Int) ≠ 200 :=
  ⟨rfl, by decide⟩

end Gohybrid
